import Mathlib

/-!
Verification of the np_vid_viewer repository (src/np_vid_viewer.py) against its
natural-language specification.

The development shallowly embeds the core of `NpVidTool`:
* `matchVidToMeltpool` embeds `NpVidTool.match_vid_to_meltpool` (lines 185-212),
* the playback tick of `NpVidTool.play_video` (lines 124-151) is embedded by
  `tick` / `presentedIndex`, with Python list-indexing semantics in `pyIndex`,
* `saveVideo` embeds `NpVidTool.save_video` (lines 153-183),
* `renderFrame` / `generateVideo` embed the per-frame transform pipeline of
  `NpVidTool.generate_video` (lines 60-122).

Timestamps and temperatures are modelled as `Int`; numpy arrays as lists.
Fallible numpy indexing (a Python `IndexError`) is modelled with `Except`.
-/

/-- A thermal frame: a 2D grid of temperature samples (`temp_data[i]`). -/
abbrev Frame := List (List Int)

/-- One meltpool sample: the five columns of a row of `meltpool_data`,
in the order the source reads them (`[0]` = timestamp, then x, y, z, area). -/
structure SensorReading where
  ts : Int
  x : Int
  y : Int
  z : Int
  area : Int
  deriving DecidableEq, Repr

/-- Default used with `List.getD`; every proof only reads it at in-bounds
indices, where `getD` agrees with `get`. -/
def defaultReading : SensorReading := ⟨0, 0, 0, 0, 0⟩

/-- One entry of `matched_array` (line 204-211 of the source): the 8-element
list `[i, video_ts, mp_ts, x, y, z, area, max_temp]`. -/
structure MatchedRecord where
  frameIndex : Nat
  videoTs : Int
  mpTs : Int
  x : Int
  y : Int
  z : Int
  area : Int
  maxTemp : Int
  deriving DecidableEq, Repr

/-- The ways the embedded code can fail: a numpy/Python `IndexError`. -/
inductive AlignError where
  | indexOutOfBounds
  deriving DecidableEq, Repr

deriving instance DecidableEq for Except

/-- `np.amax` over a (nonempty) frame; returns 0 on an empty frame, a case
numpy would reject and no claim exercises. -/
def amax (f : Frame) : Int :=
  match f.foldl (fun acc row => acc ++ row) [] with
  | [] => 0
  | x :: xs => xs.foldl max x

/-- One pointer update of `match_vid_to_meltpool` (lines 200-203): the index
advances by at most one per frame, when `mp_data_index + 1 < M` and
`video_timestamps[i] >= meltpool_data[mp_data_index + 1][0]`. -/
def stepIndex (mp : List SensorReading) (v : Int) (p : Nat) : Nat :=
  if p + 1 < mp.length then
    if (mp.getD (p + 1) defaultReading).ts ≤ v then p + 1 else p
  else p

/-- The loop body of `match_vid_to_meltpool` over the remaining
(frame, video timestamp) pairs, carrying the frame counter `i` and the
sensor pointer `p`.  Reading `meltpool_data[p]` out of bounds is the
`IndexError` Python would raise at line 206. -/
def matchLoop (mp : List SensorReading) :
    List (Frame × Int) → Nat → Nat → Except AlignError (List MatchedRecord)
  | [], _, _ => .ok []
  | (f, v) :: rest, i, p =>
    let p1 := stepIndex mp v p
    if p1 < mp.length then
      let r := mp.getD p1 defaultReading
      match matchLoop mp rest (i + 1) p1 with
      | .error e => .error e
      | .ok tail => .ok (⟨i, v, r.ts, r.x, r.y, r.z, r.area, amax f⟩ :: tail)
    else .error .indexOutOfBounds

/-- Embedding of `NpVidTool.match_vid_to_meltpool` (lines 185-212): iterate
over `range(temp_data.shape[0])`, reading `video_timestamps[i]`.  A timestamp
array shorter than the frame array would make line 201 raise `IndexError`;
that is modelled by the length guard. -/
def matchVidToMeltpool (td : List Frame) (vts : List Int)
    (mp : List SensorReading) : Except AlignError (List MatchedRecord) :=
  if td.length ≤ vts.length then matchLoop mp (td.zip vts) 0 0
  else .error .indexOutOfBounds

/-- The total record builder with the same recursion as `matchLoop`, reading
the meltpool row with `getD`; it agrees with `matchLoop` whenever the pointer
stays in bounds (proved below). -/
def alignedRecordsAux (mp : List SensorReading) :
    List (Frame × Int) → Nat → Nat → List MatchedRecord
  | [], _, _ => []
  | (f, v) :: rest, i, p =>
    let p1 := stepIndex mp v p
    let r := mp.getD p1 defaultReading
    ⟨i, v, r.ts, r.x, r.y, r.z, r.area, amax f⟩ :: alignedRecordsAux mp rest (i + 1) p1

/-- The record sequence the aligner produces, stated in closed form. -/
def alignedRecords (td : List Frame) (vts : List Int)
    (mp : List SensorReading) : List MatchedRecord :=
  alignedRecordsAux mp (td.zip vts) 0 0

/-- Run the per-frame pointer update over a list of video timestamps,
starting from pointer `p`.  `ptrRun mp 0 (vts.take (k+1))` is the sensor
index used in the record of frame `k`. -/
def ptrRun (mp : List SensorReading) (p : Nat) : List Int → Nat
  | [] => p
  | v :: rest => ptrRun mp (stepIndex mp v p) rest

/-- The advancement rule exactly as the specification states it: WHILE
`p + 1 < M` and `video_timestamp >= sensor_timestamp[p+1]`, advance `p`.
Structural fuel replaces the while loop; since each pass increases `p` and
stops once `p + 1 ≥ M`, fuel `M` always suffices. -/
def specAdvance (mp : List SensorReading) (v : Int) : Nat → Nat → Nat
  | 0, p => p
  | fuel + 1, p =>
    if p + 1 < mp.length ∧ (mp.getD (p + 1) defaultReading).ts ≤ v then
      specAdvance mp v fuel (p + 1)
    else p

/-- The record sequence that the specification algorithm (while-loop
advancement) would produce; used to compare the code with the claim. -/
def specAlignAux (mp : List SensorReading) :
    List (Frame × Int) → Nat → Nat → List MatchedRecord
  | [], _, _ => []
  | (f, v) :: rest, i, p =>
    let p1 := specAdvance mp v mp.length p
    let r := mp.getD p1 defaultReading
    ⟨i, v, r.ts, r.x, r.y, r.z, r.area, amax f⟩ :: specAlignAux mp rest (i + 1) p1

/-- The sample aligner exactly as claimed: while-loop pointer advancement. -/
def specAlign (td : List Frame) (vts : List Int)
    (mp : List SensorReading) : List MatchedRecord :=
  specAlignAux mp (td.zip vts) 0 0

/-- Key inputs of the interactive loop (lines 133-141 of the source):
the keys q (quit), k (pause toggle), l (seek forward), j (seek backward),
or no recognised key this tick. -/
inductive Key where
  | quit
  | toggle
  | fwdSeek
  | backSeek
  | noKey
  deriving DecidableEq, Repr

/-- Mutable loop state of `play_video`: `frame_num` (an unbounded Python
int, hence `Int`) and the `pause` flag. -/
structure PlayState where
  frameNum : Int
  pause : Bool
  deriving DecidableEq, Repr

/-- The elif chain of lines 136-141: toggle flips `pause`, the seeks adjust
`frame_num` by ±10 with no bounds check. -/
def applyKey : Key → PlayState → PlayState
  | .toggle, s => ⟨s.frameNum, !s.pause⟩
  | .fwdSeek, s => ⟨s.frameNum + 10, s.pause⟩
  | .backSeek, s => ⟨s.frameNum - 10, s.pause⟩
  | _, s => s

/-- Lines 143-146: after key handling, `frame_num += 1` unless paused. -/
def autoAdvance (s : PlayState) : PlayState :=
  if s.pause then s else ⟨s.frameNum + 1, s.pause⟩

/-- One iteration of the while loop up to the state update: `q` breaks the
loop (`none`); otherwise the key is applied and then the auto-advance. -/
def tick (k : Key) (s : PlayState) : Option PlayState :=
  if k = .quit then none else some (autoAdvance (applyKey k s))

/-- Python list indexing for `self.video_array[frame_num]` (line 148) on a
list of length `n`: non-negative indices below `n` are used directly,
negative indices at least `-n` wrap to `n + i`, anything else raises
IndexError (`none`). -/
def pyIndex (n : Nat) (i : Int) : Option Nat :=
  if 0 ≤ i then
    if i < (n : Int) then some i.toNat else none
  else
    if -(n : Int) ≤ i then some (i + n).toNat else none

/-- The index of the frame presented by one tick of the loop over `n`
frames: the state is updated first (lines 133-146), then
`video_array[frame_num]` is shown (lines 148-149).  `none` means the tick
presents nothing: the loop quit, or indexing raised IndexError. -/
def presentedIndex (n : Nat) (k : Key) (s : PlayState) : Option Nat :=
  match tick k s with
  | none => none
  | some s1 => pyIndex n s1.frameNum

/-- Line 130-131: playback starts at frame 0, not paused. -/
def initialPlayState : PlayState := ⟨0, false⟩

/-- An exception raised by `video_writer.write` mid-stream. -/
inductive ExportError where
  | writeFailed
  deriving DecidableEq, Repr

deriving instance DecidableEq for Prod

/-- The write loop of `save_video` (lines 170-181): each frame is written in
order; `fails i` says whether the i-th write raises.  A raise propagates
immediately, abandoning the loop with the frames written so far lost to the
caller. -/
def writeFrames (fails : Nat → Bool) :
    List Nat → Nat → List Nat → Except ExportError (List Nat)
  | [], _, acc => .ok acc
  | f :: rest, i, acc =>
    if fails i then .error .writeFailed
    else writeFrames fails rest (i + 1) (acc ++ [f])

/-- Embedding of `NpVidTool.save_video` (lines 153-183): write every frame,
then `video_writer.release()` — which stands on line 183 with no
try/finally, so it runs only when the loop finishes without raising.  The
Bool records whether the writer was released on that exit path. -/
def saveVideo (fails : Nat → Bool) (frames : List Nat) :
    Except ExportError (List Nat) × Bool :=
  match writeFrames fails frames 0 [] with
  | .error e => (.error e, false)
  | .ok written => (.ok written, true)

/-- Pipeline configuration flags of `NpVidTool.__init__` (lines 35-58). -/
structure Config where
  removeTopReflection : Bool
  removeBottomReflection : Bool
  mpDataOnVid : Bool
  deriving DecidableEq, Repr

/-- Modelled from the spec: `np_vid_viewer.reflection_remover.remove_top` is
imported by the source (line 6, called at lines 100-102 with
zero_level_threshold 180 and max_temp_threshold 700) but its module is not
under src/.  Spec §4.2 step 1: a pixel whose value is at or below the
zero-level threshold or at or above the max-temperature threshold, lying in
the upper region of the frame (modelled as the upper half), is zeroed. -/
def removeTop (zlt mtt : Int) (f : Frame) : Frame :=
  let rows := f.length
  f.enum.map fun rr =>
    if 2 * rr.1 < rows then
      rr.2.map fun v => if v ≤ zlt ∨ mtt ≤ v then 0 else v
    else rr.2

/-- Modelled from the spec: `reflection_remover.remove_bottom` is not under
src/.  Spec §4.2 step 2 and Scenario C: zero every pixel whose row is at or
below the per-column boundary (boundary 50 on a 100-row frame zeroes rows
50-99); columns without a boundary entry are left untouched. -/
def removeBottom (bounds : List Nat) (f : Frame) : Frame :=
  f.enum.map fun rr =>
    rr.2.enum.map fun cv =>
      if bounds.getD cv.1 f.length ≤ rr.1 then 0 else cv.2

/-- Modelled from the spec: `reflection_remover.find_lower_bounds` is not
under src/.  Spec §4.2 step 2: computed once from the full frame set — per
column, the first row at which a persistently (across all frames) hot
region begins; a column with no such row gets the row count (no masking). -/
def findLowerBounds (td : List Frame) : List Nat :=
  let rows := (td.headD []).length
  let cols := ((td.headD []).headD []).length
  (List.range cols).map fun c =>
    ((List.range rows).find? fun r =>
      td.all fun f => 700 ≤ (f.getD r []).getD c 0).getD rows

/-- Minimum temperature of a frame (companion of `amax` for normalization). -/
def frameMin (f : Frame) : Int :=
  match f.foldl (fun acc row => acc ++ row) [] with
  | [] => 0
  | x :: xs => xs.foldl min x

/-- `cv2.normalize(img, img, 0, 255, cv2.NORM_MINMAX, cv2.CV_8UC1)`
(line 109): per-frame linear stretch of the value range onto 0-255; a
constant frame maps to 0. -/
def normalizeMinMax (f : Frame) : Frame :=
  let lo := frameMin f
  let hi := amax f
  f.map fun row => row.map fun v =>
    if hi = lo then 0 else (v - lo) * 255 / (hi - lo)

/-- Modelled from the spec: `cv2.applyColorMap(img, cv2.COLORMAP_INFERNO)`
(line 112) maps each 8-bit intensity to a fixed 3-channel palette entry;
the exact palette lives in the external library and is modelled as a fixed
deterministic map. -/
def applyInferno (f : Frame) : List (List (Int × Int × Int)) :=
  f.map fun row => row.map fun v => (v, v / 2, 255 - v)

/-- One piece of text drawn by `cv2.putText`, with its pixel position. -/
structure OverlayText where
  text : String
  px : Nat
  py : Nat
  deriving DecidableEq, Repr

/-- A displayable frame: 3-channel pixels plus the text drawn on top. -/
structure RenderedFrame where
  pixels : List (List (Int × Int × Int))
  overlays : List OverlayText
  deriving DecidableEq, Repr

/-- `cv2.putText` (modelling the external call): record the drawn text. -/
def putText (img : RenderedFrame) (t : String) (px py : Nat) : RenderedFrame :=
  { img with overlays := img.overlays ++ [⟨t, px, py⟩] }

/-- Embedding of `NpVidTool.add_mp_data_to_img` (lines 258-311): five texts
at x = 50 and y = k/16 of the image height, k = 1..5. -/
def addMpDataToImg (mrec : MatchedRecord) (img : RenderedFrame) : RenderedFrame :=
  let h := img.pixels.length
  let img := putText img ("X: " ++ toString mrec.x) 50 (1 * h / 16)
  let img := putText img ("Y: " ++ toString mrec.y) 50 (2 * h / 16)
  let img := putText img ("Z: " ++ toString mrec.z) 50 (3 * h / 16)
  let img := putText img ("Area: " ++ toString mrec.area) 50 (4 * h / 16)
  putText img ("Max Temp: " ++ toString mrec.maxTemp) 50 (5 * h / 16)

/-- The per-frame transform pipeline, the body of the loop at lines 92-119.
Line 93 copies the read-only source frame before the in-place reflection
edits, and line 108 copies again before normalization, so in this
functional embedding the raw frame flows in by value and is never written. -/
def renderFrame (cfg : Config) (bounds : List Nat) (mrec : MatchedRecord)
    (raw : Frame) : RenderedFrame :=
  let frame := raw
  let frame :=
    if cfg.removeTopReflection then removeTop 180 700 frame else frame
  let frame :=
    if cfg.removeBottomReflection then removeBottom bounds frame else frame
  let img := normalizeMinMax frame
  let colored := applyInferno img
  let rf : RenderedFrame := ⟨colored, []⟩
  if cfg.mpDataOnVid then addMpDataToImg mrec rf else rf

/-- Embedding of `NpVidTool.generate_video` (lines 60-122) after loading:
match the meltpool data, compute the lower bounds once if requested, then
render every frame.  The second component is the temperature data as the
rendering loop leaves it: the loop reads `temp_data` through the copies of
lines 93 and 108 only, so it passes through unchanged. -/
def generateVideo (cfg : Config) (td : List Frame) (vts : List Int)
    (mp : List SensorReading) :
    Except AlignError (List RenderedFrame × List Frame) :=
  match matchVidToMeltpool td vts mp with
  | .error e => .error e
  | .ok recs =>
    let bounds := if cfg.removeBottomReflection then findLowerBounds td else []
    .ok ((td.zip recs).map fun fr => renderFrame cfg bounds fr.2 fr.1, td)

theorem stepIndex_ge (mp : List SensorReading) (v : Int) (p : Nat) :
    p ≤ stepIndex mp v p := by
  simp only [stepIndex]; split_ifs <;> omega

theorem stepIndex_lt_length {mp : List SensorReading} {v : Int} {p : Nat}
    (hp : p < mp.length) : stepIndex mp v p < mp.length := by
  simp only [stepIndex]; split_ifs <;> omega

theorem stepIndex_eq_or (mp : List SensorReading) (v : Int) (p : Nat) :
    stepIndex mp v p = p ∨
      (stepIndex mp v p = p + 1 ∧ (mp.getD (p + 1) defaultReading).ts ≤ v) := by
  simp only [stepIndex]
  split_ifs with h1 h2
  · exact Or.inr ⟨rfl, h2⟩
  · exact Or.inl rfl
  · exact Or.inl rfl

theorem le_ptrRun (mp : List SensorReading) :
    ∀ (l : List Int) (p : Nat), p ≤ ptrRun mp p l
  | [], _ => Nat.le_refl _
  | v :: rest, p =>
    Nat.le_trans (stepIndex_ge mp v p) (le_ptrRun mp rest (stepIndex mp v p))

theorem ptrRun_append (mp : List SensorReading) :
    ∀ (l₁ l₂ : List Int) (p : Nat),
      ptrRun mp p (l₁ ++ l₂) = ptrRun mp (ptrRun mp p l₁) l₂
  | [], _, _ => rfl
  | v :: rest, l₂, p => ptrRun_append mp rest l₂ (stepIndex mp v p)

theorem ptrRun_take_mono (mp : List SensorReading) (vts : List Int)
    {i j : Nat} (hij : i ≤ j) :
    ptrRun mp 0 (vts.take i) ≤ ptrRun mp 0 (vts.take j) := by
  have h : vts.take j = vts.take i ++ (vts.drop i).take (j - i) := by
    rw [← List.take_add]; congr 1; omega
  rw [h, ptrRun_append]
  exact le_ptrRun mp _ _

theorem matchLoop_eq_aligned (mp : List SensorReading) :
    ∀ (pairs : List (Frame × Int)) (i p : Nat), p < mp.length →
      matchLoop mp pairs i p = .ok (alignedRecordsAux mp pairs i p)
  | [], _, _, _ => rfl
  | (f, v) :: rest, i, p, hp => by
    have hlt := @stepIndex_lt_length mp v p hp
    simp only [matchLoop, alignedRecordsAux, if_pos hlt,
      matchLoop_eq_aligned mp rest (i + 1) _ hlt]

theorem matchLoop_ok_eq (mp : List SensorReading) :
    ∀ (pairs : List (Frame × Int)) (i p : Nat) (l : List MatchedRecord),
      matchLoop mp pairs i p = .ok l → l = alignedRecordsAux mp pairs i p
  | [], _, _, l, h => by
    simp only [matchLoop] at h
    cases h; rfl
  | (f, v) :: rest, i, p, l, h => by
    simp only [matchLoop] at h
    split at h
    · cases hrec : matchLoop mp rest (i + 1) (stepIndex mp v p) with
      | error e => rw [hrec] at h; cases h
      | ok tail =>
        rw [hrec] at h
        cases h
        simp only [alignedRecordsAux]
        rw [matchLoop_ok_eq mp rest (i + 1) _ tail hrec]
    · cases h

theorem alignedRecordsAux_length (mp : List SensorReading) :
    ∀ (pairs : List (Frame × Int)) (i p : Nat),
      (alignedRecordsAux mp pairs i p).length = pairs.length
  | [], _, _ => rfl
  | (f, v) :: rest, i, p => by
    simp only [alignedRecordsAux, List.length_cons,
      alignedRecordsAux_length mp rest (i + 1) _]

theorem alignedRecordsAux_get? (mp : List SensorReading) :
    ∀ (pairs : List (Frame × Int)) (i p k : Nat) (fv : Frame × Int),
      pairs.get? k = some fv →
      (alignedRecordsAux mp pairs i p).get? k =
        some ⟨i + k, fv.2,
          (mp.getD (ptrRun mp p ((pairs.map Prod.snd).take (k + 1))) defaultReading).ts,
          (mp.getD (ptrRun mp p ((pairs.map Prod.snd).take (k + 1))) defaultReading).x,
          (mp.getD (ptrRun mp p ((pairs.map Prod.snd).take (k + 1))) defaultReading).y,
          (mp.getD (ptrRun mp p ((pairs.map Prod.snd).take (k + 1))) defaultReading).z,
          (mp.getD (ptrRun mp p ((pairs.map Prod.snd).take (k + 1))) defaultReading).area,
          amax fv.1⟩
  | [], _, _, k, fv, h => by simp at h
  | (f, v) :: rest, i, p, 0, fv, h => by
    simp only [List.get?] at h
    cases h
    simp [alignedRecordsAux, ptrRun]
  | (f, v) :: rest, i, p, k + 1, fv, h => by
    simp only [List.get?] at h
    have ih := alignedRecordsAux_get? mp rest (i + 1) (stepIndex mp v p) k fv h
    simp only [alignedRecordsAux, List.get?, ih, List.map_cons, List.take_succ_cons,
      ptrRun]
    have e : i + 1 + k = i + (k + 1) := by omega
    rw [e]

theorem matchVid_eq_aligned {td : List Frame} {vts : List Int}
    {mp : List SensorReading} (hmp : mp ≠ []) (hlen : td.length ≤ vts.length) :
    matchVidToMeltpool td vts mp = .ok (alignedRecords td vts mp) := by
  have h0 : 0 < mp.length := List.length_pos.mpr hmp
  unfold matchVidToMeltpool alignedRecords
  rw [if_pos hlen]
  exact matchLoop_eq_aligned mp _ 0 0 h0

theorem matchVid_ok_eq {td : List Frame} {vts : List Int}
    {mp : List SensorReading} {l : List MatchedRecord}
    (h : matchVidToMeltpool td vts mp = .ok l) :
    td.length ≤ vts.length ∧ l = alignedRecords td vts mp := by
  unfold matchVidToMeltpool at h
  split at h
  · exact ⟨by assumption, matchLoop_ok_eq mp _ 0 0 l h⟩
  · cases h

theorem map_snd_zip_eq_take :
    ∀ (a : List Frame) (b : List Int), (a.zip b).map Prod.snd = b.take a.length
  | [], _ => by simp
  | f :: a, [] => by simp
  | f :: a, v :: b => by
    simp [List.zip_cons_cons, map_snd_zip_eq_take a b]

theorem zip_get_snd :
    ∀ (a : List Frame) (b : List Int) (k : Nat) (h : k < (a.zip b).length),
      ((a.zip b).get ⟨k, h⟩).2 = b.getD k 0
  | [], _, k, h => absurd h (by simp)
  | f :: a, [], k, h => absurd h (by simp)
  | f :: a, v :: b, 0, _ => rfl
  | f :: a, v :: b, k + 1, h => zip_get_snd a b k (by simpa using h)

/-- Invariant behind C3: if the first sensor timestamp does not lie in the
future of the first video timestamp and the video timestamps are
non-decreasing, then the sensor reading the pointer selects for frame `k`
has a timestamp at or before the video timestamp of frame `k`. -/
theorem ptr_ts_le_video (mp : List SensorReading) (vts : List Int)
    (hfirst : (mp.getD 0 defaultReading).ts ≤ vts.getD 0 0)
    (hmono : ∀ k, k + 1 < vts.length → vts.getD k 0 ≤ vts.getD (k + 1) 0) :
    ∀ k, k < vts.length →
      (mp.getD (ptrRun mp 0 (vts.take (k + 1))) defaultReading).ts ≤ vts.getD k 0 := by
  intro k
  induction k with
  | zero =>
    intro hk
    cases vts with
    | nil => simp at hk
    | cons v rest =>
      show (mp.getD (stepIndex mp v 0) defaultReading).ts ≤ v
      rcases stepIndex_eq_or mp v 0 with h | ⟨h, hts⟩
      · rw [h]; exact hfirst
      · rw [h]; exact hts
  | succ k ih =>
    intro hk
    have hk' : k < vts.length := by omega
    have h1 : vts[k + 1]? = some vts[k + 1] := List.getElem?_eq_getElem hk
    have h2 : vts.getD (k + 1) 0 = vts[k + 1] := by
      rw [List.getD_eq_getElem?_getD, h1]; rfl
    have hsplit : vts.take (k + 1 + 1) = vts.take (k + 1) ++ [vts.getD (k + 1) 0] := by
      rw [List.take_succ, h1, h2]; rfl
    rw [hsplit, ptrRun_append]
    show (mp.getD (stepIndex mp (vts.getD (k + 1) 0)
      (ptrRun mp 0 (vts.take (k + 1)))) defaultReading).ts ≤ vts.getD (k + 1) 0
    rcases stepIndex_eq_or mp (vts.getD (k + 1) 0) (ptrRun mp 0 (vts.take (k + 1)))
      with h | ⟨h, hts⟩
    · rw [h]
      exact le_trans (ih hk') (hmono k hk)
    · rw [h]; exact hts

/-- C1 counterexample: the claim states the pointer advances by a WHILE loop
(catching up past several sensor readings within one frame), but the source
(lines 200-203) advances it with an IF, at most once per frame.  With one
frame at video timestamp 10 and three sensor readings at timestamps 0, 1, 2,
the code emits the reading at index 1 while the claimed algorithm emits the
reading at index 2. -/
theorem c1_counterexample :
    matchVidToMeltpool [[[5]]] [10]
        [⟨0, 1, 1, 1, 1⟩, ⟨1, 2, 2, 2, 2⟩, ⟨2, 3, 3, 3, 3⟩] ≠
      .ok (specAlign [[[5]]] [10]
        [⟨0, 1, 1, 1, 1⟩, ⟨1, 2, 2, 2, 2⟩, ⟨2, 3, 3, 3, 3⟩]) := by decide

/-- C1 (amended): given `N` frames, at least `N` video timestamps and `M ≥ 1`
sensor readings, the aligner produces exactly `N` MatchedRecords, one per
frame in frame order, where the pointer advances AT MOST ONCE per frame
(if `p + 1 < M` and `video_timestamp[i] ≥ sensor_timestamp[p+1]`), and the
record of frame `i` carries sensor reading `p` together with the maximum
temperature of thermal frame `i` — the recursion `alignedRecords`. -/
theorem c1_aligner_records (td : List Frame) (vts : List Int)
    (mp : List SensorReading) (hmp : mp ≠ []) (hlen : td.length ≤ vts.length) :
    matchVidToMeltpool td vts mp = .ok (alignedRecords td vts mp) ∧
      (alignedRecords td vts mp).length = td.length := by
  refine ⟨matchVid_eq_aligned hmp hlen, ?_⟩
  unfold alignedRecords
  rw [alignedRecordsAux_length, List.length_zip]
  omega

/-- C1 witness: the amended theorem applied at two frames and one reading. -/
theorem c1_witness :
    matchVidToMeltpool [[[7]], [[8]]] [0, 1] [⟨0, 1, 2, 3, 4⟩] =
      .ok (alignedRecords [[[7]], [[8]]] [0, 1] [⟨0, 1, 2, 3, 4⟩]) ∧
      (alignedRecords [[[7]], [[8]]] [0, 1] [⟨0, 1, 2, 3, 4⟩]).length = 2 :=
  c1_aligner_records _ _ _ (by decide) (by decide)

/-- C8: equality tie-break advances the pointer (at-or-after semantics).
Scenario A of the spec: five frames with video timestamps 0..4 and sensor
readings at timestamps 0 and 2 — frames 0 and 1 use reading 0
(x = 10, y = 11, z = 12, area = 13) and frames 2, 3, 4 use reading 1
(x = 20, y = 21, z = 22, area = 23). -/
theorem c8_tie_break_scenario_a :
    matchVidToMeltpool [[[10]], [[20]], [[30]], [[40]], [[50]]]
        [0, 1, 2, 3, 4]
        [⟨0, 10, 11, 12, 13⟩, ⟨2, 20, 21, 22, 23⟩] =
      .ok [⟨0, 0, 0, 10, 11, 12, 13, 10⟩,
           ⟨1, 1, 0, 10, 11, 12, 13, 20⟩,
           ⟨2, 2, 2, 20, 21, 22, 23, 30⟩,
           ⟨3, 3, 2, 20, 21, 22, 23, 40⟩,
           ⟨4, 4, 2, 20, 21, 22, 23, 50⟩] := by decide

/-- C9: the sensor index used across the MatchedRecord sequence is
monotonically non-decreasing in the frame index: the pointer used at frame
`i` (namely `ptrRun mp 0 (vts.take (i+1))`) is at most the pointer used at
frame `j` for `i ≤ j`, and record `j` indeed carries the sensor reading at
that pointer. -/
theorem c9_sensor_index_monotone (td : List Frame) (vts : List Int)
    (mp : List SensorReading) (l : List MatchedRecord)
    (h : matchVidToMeltpool td vts mp = .ok l) :
    ∀ i j : Nat, i ≤ j →
      ptrRun mp 0 (vts.take (i + 1)) ≤ ptrRun mp 0 (vts.take (j + 1)) ∧
      ∀ (hj : j < l.length),
        (l.get ⟨j, hj⟩).mpTs =
          (mp.getD (ptrRun mp 0 (vts.take (j + 1))) defaultReading).ts := by
  obtain ⟨hlen, hl⟩ := matchVid_ok_eq h
  intro i j hij
  refine ⟨ptrRun_take_mono mp vts (by omega), ?_⟩
  intro hj
  subst hl
  have hlab := alignedRecordsAux_length mp (td.zip vts) 0 0
  have hjp : j < (td.zip vts).length := by
    unfold alignedRecords at hj; omega
  have hjt : j + 1 ≤ td.length := by
    rw [List.length_zip] at hjp; omega
  have hfv := List.get?_eq_get hjp
  have hget := alignedRecordsAux_get? mp (td.zip vts) 0 0 j _ hfv
  have hptr : ((td.zip vts).map Prod.snd).take (j + 1) = vts.take (j + 1) := by
    rw [map_snd_zip_eq_take, List.take_take]
    congr 1
    exact Nat.min_eq_left hjt
  have hgl : (alignedRecords td vts mp).get? j =
      some ((alignedRecords td vts mp).get ⟨j, hj⟩) := List.get?_eq_get hj
  unfold alignedRecords at hgl
  rw [hget, hptr] at hgl
  injection hgl with hrec
  unfold alignedRecords
  rw [← hrec]

/-- C9 witness: the theorem applied to Scenario A data at frames 2 and 4. -/
theorem c9_witness :
    ptrRun [⟨0, 10, 11, 12, 13⟩, ⟨2, 20, 21, 22, 23⟩] 0
        ([(0 : Int), 1, 2, 3, 4].take 3) ≤
      ptrRun [⟨0, 10, 11, 12, 13⟩, ⟨2, 20, 21, 22, 23⟩] 0
        ([(0 : Int), 1, 2, 3, 4].take 5) ∧
    (([⟨0, 0, 0, 10, 11, 12, 13, 10⟩,
       ⟨1, 1, 0, 10, 11, 12, 13, 20⟩,
       ⟨2, 2, 2, 20, 21, 22, 23, 30⟩,
       ⟨3, 3, 2, 20, 21, 22, 23, 40⟩,
       ⟨4, 4, 2, 20, 21, 22, 23, 50⟩] : List MatchedRecord).get
          ⟨4, by decide⟩).mpTs =
      (([⟨0, 10, 11, 12, 13⟩, ⟨2, 20, 21, 22, 23⟩] :
          List SensorReading).getD
        (ptrRun [⟨0, 10, 11, 12, 13⟩, ⟨2, 20, 21, 22, 23⟩] 0
          ([(0 : Int), 1, 2, 3, 4].take 5)) defaultReading).ts := by
  have H := c9_sensor_index_monotone
    [[[10]], [[20]], [[30]], [[40]], [[50]]]
    [0, 1, 2, 3, 4]
    [⟨0, 10, 11, 12, 13⟩, ⟨2, 20, 21, 22, 23⟩]
    [⟨0, 0, 0, 10, 11, 12, 13, 10⟩,
     ⟨1, 1, 0, 10, 11, 12, 13, 20⟩,
     ⟨2, 2, 2, 20, 21, 22, 23, 30⟩,
     ⟨3, 3, 2, 20, 21, 22, 23, 40⟩,
     ⟨4, 4, 2, 20, 21, 22, 23, 50⟩]
    (by decide) 2 4 (by decide)
  exact ⟨H.1, H.2 (by decide)⟩

/-- C3 counterexample: when the only sensor reading lies in the future of the
first frame (sensor timestamp 100, video timestamp 0), the code still emits
it, so the emitted record has a sensor timestamp greater than its video
timestamp. -/
theorem c3_counterexample :
    matchVidToMeltpool [[[0]]] [0] [⟨100, 1, 2, 3, 4⟩] =
      .ok [⟨0, 0, 100, 1, 2, 3, 4, 0⟩] ∧ ¬ ((100 : Int) ≤ (0 : Int)) := by
  decide

/-- C3 (amended): assuming additionally that the first sensor timestamp is at
or before the first video timestamp and that the video timestamps are
non-decreasing, every emitted MatchedRecord has sensor timestamp ≤ its own
video timestamp. -/
theorem c3_sensor_ts_le_video_ts (td : List Frame) (vts : List Int)
    (mp : List SensorReading) (l : List MatchedRecord)
    (hfirst : (mp.getD 0 defaultReading).ts ≤ vts.getD 0 0)
    (hmono : ∀ k, k + 1 < vts.length → vts.getD k 0 ≤ vts.getD (k + 1) 0)
    (h : matchVidToMeltpool td vts mp = .ok l) :
    ∀ k (hk : k < l.length),
      (l.get ⟨k, hk⟩).mpTs ≤ (l.get ⟨k, hk⟩).videoTs := by
  obtain ⟨hlen, hl⟩ := matchVid_ok_eq h
  subst hl
  intro k hk
  have hlab := alignedRecordsAux_length mp (td.zip vts) 0 0
  have hkp : k < (td.zip vts).length := by
    unfold alignedRecords at hk; omega
  have hkt : k + 1 ≤ td.length := by
    rw [List.length_zip] at hkp; omega
  have hkv : k < vts.length := by
    rw [List.length_zip] at hkp; omega
  have hfv := List.get?_eq_get hkp
  have hget := alignedRecordsAux_get? mp (td.zip vts) 0 0 k _ hfv
  have hptr : ((td.zip vts).map Prod.snd).take (k + 1) = vts.take (k + 1) := by
    rw [map_snd_zip_eq_take, List.take_take]
    congr 1
    exact Nat.min_eq_left hkt
  have hgl : (alignedRecords td vts mp).get? k =
      some ((alignedRecords td vts mp).get ⟨k, hk⟩) := List.get?_eq_get hk
  unfold alignedRecords at hgl
  rw [hget, hptr] at hgl
  injection hgl with hrec
  unfold alignedRecords
  rw [← hrec]
  show (mp.getD (ptrRun mp 0 (vts.take (k + 1))) defaultReading).ts ≤
    ((td.zip vts).get ⟨k, hkp⟩).2
  rw [zip_get_snd]
  exact ptr_ts_le_video mp vts hfirst hmono k hkv

/-- C3 witness: the amended theorem applied to two frames and two readings. -/
theorem c3_witness :
    ((alignedRecords [[[5]], [[6]]] [0, 3] [⟨0, 1, 2, 3, 4⟩, ⟨2, 5, 6, 7, 8⟩]).get
        ⟨1, by decide⟩).mpTs ≤
      ((alignedRecords [[[5]], [[6]]] [0, 3] [⟨0, 1, 2, 3, 4⟩, ⟨2, 5, 6, 7, 8⟩]).get
        ⟨1, by decide⟩).videoTs :=
  c3_sensor_ts_le_video_ts [[[5]], [[6]]] [0, 3]
    [⟨0, 1, 2, 3, 4⟩, ⟨2, 5, 6, 7, 8⟩] _
    (by decide)
    (by
      intro k hk
      have hk2 : k + 1 < 2 := by simpa using hk
      have hk0 : k = 0 := by omega
      subst hk0
      decide)
    (by decide) 1 (by decide)

/-- C7 counterexample: with an empty sensor stream AND an empty frame set the
aligner does not fail at all — it returns an empty matched array — so the
claim that an empty sensor stream always fails fast is false; moreover the
source defines no EmptySensorStreamError anywhere. -/
theorem c7_counterexample : matchVidToMeltpool [] [] [] = .ok [] := by decide

/-- C7 (amended): with an empty sensor stream and at least one frame, the
aligner fails with a plain index-out-of-bounds error (the IndexError numpy
raises at line 206, not a dedicated EmptySensorStreamError) before any
record is produced; with no frames it succeeds with an empty record list. -/
theorem c7_empty_sensor_error (td : List Frame) (vts : List Int)
    (hne : td ≠ []) (hlen : td.length ≤ vts.length) :
    matchVidToMeltpool td vts [] = .error .indexOutOfBounds := by
  cases td with
  | nil => exact absurd rfl hne
  | cons f rest =>
    cases vts with
    | nil => simp at hlen
    | cons v vr =>
      unfold matchVidToMeltpool
      rw [if_pos hlen]
      rfl

/-- C7 witness: the amended theorem applied at one frame. -/
theorem c7_witness : matchVidToMeltpool [[[1]]] [0] [] = .error .indexOutOfBounds :=
  c7_empty_sensor_error [[[1]]] [0] (by decide) (by decide)

/-- C2 counterexample: the claim says a backward seek from frame 3 is clamped
to frame 0 and the position always stays in `[0, N-1]`; the code instead
yields position -7 (paused tick with a backward-seek key), which is outside
every such range. -/
theorem c2_counterexample :
    tick Key.backSeek ⟨3, true⟩ = some ⟨-7, true⟩ ∧ ¬ ((0 : Int) ≤ -7) := by
  decide

/-- C2 (amended): the frame position is never clamped.  A backward seek
subtracts 10 (plus the auto-advance when playing) with no bounds check, and
presentation then follows Python indexing: positions in `[0, n)` are used
directly, positions in `[-n, 0)` wrap around to `n + position`, and any
other position raises IndexError instead of clamping. -/
theorem c2_no_clamping (s : PlayState) (n : Nat) :
    tick Key.backSeek s =
      some ⟨s.frameNum - 10 + (if s.pause then 0 else 1), s.pause⟩ ∧
    (∀ i : Int, 0 ≤ i → i < (n : Int) → pyIndex n i = some i.toNat) ∧
    (∀ i : Int, -(n : Int) ≤ i → i < 0 → pyIndex n i = some (i + n).toNat) ∧
    (∀ i : Int, (n : Int) ≤ i → pyIndex n i = none) ∧
    (∀ i : Int, i < -(n : Int) → pyIndex n i = none) := by
  refine ⟨?_, ?_, ?_, ?_, ?_⟩
  · cases s with
    | mk fn p =>
      cases p <;> simp [tick, applyKey, autoAdvance]
  · intro i h0 hn
    unfold pyIndex
    rw [if_pos h0, if_pos hn]
  · intro i hge hlt
    unfold pyIndex
    rw [if_neg (by omega), if_pos hge]
  · intro i hge
    unfold pyIndex
    rw [if_pos (by omega), if_neg (by omega)]
  · intro i hlt
    unfold pyIndex
    rw [if_neg (by omega), if_neg (by omega)]

/-- C2 witness: from frame 3 paused, a backward seek reaches position -7; on
a 10-frame video Python indexing then presents frame 3 again (10 - 7), and a
position past the end is an IndexError, not a clamp. -/
theorem c2_witness :
    tick Key.backSeek ⟨3, true⟩ = some ⟨-7, true⟩ ∧
    pyIndex 10 (-7) = some 3 ∧ pyIndex 10 11 = none := by
  have H := c2_no_clamping ⟨3, true⟩ 10
  exact ⟨by simpa using H.1,
    by simpa using H.2.2.1 (-7) (by decide) (by decide),
    H.2.2.2.1 11 (by decide)⟩

/-- C6 counterexample: the claim says a seek-forward input changes the
position by exactly +10 independent of the play/pause state; while playing,
the tick that carries the seek also auto-advances, so from frame 0 the
position becomes 11, a change of 11. -/
theorem c6_counterexample :
    tick Key.fwdSeek ⟨0, false⟩ = some ⟨11, false⟩ ∧
      (11 : Int) - 0 ≠ 10 := by decide

/-- C6 (amended): within a tick the seek handler itself adjusts the position
by exactly ±10 regardless of state, but the auto-advance of the same tick
also applies, so the net per-tick change of a seek is +10 or -10 when
paused and +11 or -9 when playing; a tick with no input nets +1 when
playing and 0 when paused. -/
theorem c6_tick_deltas (fn : Int) :
    applyKey Key.fwdSeek ⟨fn, true⟩ = ⟨fn + 10, true⟩ ∧
    applyKey Key.fwdSeek ⟨fn, false⟩ = ⟨fn + 10, false⟩ ∧
    tick Key.fwdSeek ⟨fn, true⟩ = some ⟨fn + 10, true⟩ ∧
    tick Key.fwdSeek ⟨fn, false⟩ = some ⟨fn + 11, false⟩ ∧
    tick Key.backSeek ⟨fn, true⟩ = some ⟨fn - 10, true⟩ ∧
    tick Key.backSeek ⟨fn, false⟩ = some ⟨fn - 9, false⟩ ∧
    tick Key.noKey ⟨fn, false⟩ = some ⟨fn + 1, false⟩ ∧
    tick Key.noKey ⟨fn, true⟩ = some ⟨fn, true⟩ := by
  refine ⟨rfl, rfl, ?_, ?_, ?_, ?_, ?_, ?_⟩ <;>
    simp [tick, applyKey, autoAdvance] <;> omega

/-- C10 counterexample: the claim says frame 0 is presented on the first
tick only if a pause input arrives then; but on a 9-frame video a
backward-seek first tick lands on position -9, which Python indexing wraps
to element 0 — frame 0 is presented without any pause input. -/
theorem c10_counterexample :
    presentedIndex 9 Key.backSeek ⟨0, false⟩ = some 0 ∧
      Key.backSeek ≠ Key.toggle := by decide

/-- C10 (amended): the position update precedes presentation, so a playback
session started playing whose first tick has no input presents frame 1
(whenever the video has at least 2 frames); and the first tick presents
frame 0 exactly when a pause input arrives (and the video is nonempty) or
when the video has exactly 9 frames and a backward seek wraps around. -/
theorem c10_first_tick (n : Nat) (k : Key) :
    (2 ≤ n → presentedIndex n Key.noKey initialPlayState = some 1) ∧
    (presentedIndex n k initialPlayState = some 0 ↔
      (k = Key.toggle ∧ 1 ≤ n) ∨ (k = Key.backSeek ∧ n = 9)) := by
  constructor
  · intro hn
    show pyIndex n 1 = some 1
    unfold pyIndex
    rw [if_pos (by omega), if_pos (by omega)]
    rfl
  · cases k with
    | quit => simp [presentedIndex, tick]
    | toggle =>
      show pyIndex n 0 = some 0 ↔ _
      unfold pyIndex
      rw [if_pos (by omega)]
      split_ifs with h <;> simp <;> omega
    | fwdSeek =>
      show pyIndex n 11 = some 0 ↔ _
      unfold pyIndex
      rw [if_pos (by omega)]
      split_ifs with h <;> simp
    | backSeek =>
      show pyIndex n (-9) = some 0 ↔ _
      unfold pyIndex
      rw [if_neg (by omega)]
      split_ifs with h <;> simp <;> omega
    | noKey =>
      show pyIndex n 1 = some 0 ↔ _
      unfold pyIndex
      rw [if_pos (by omega)]
      split_ifs with h <;> simp

/-- C10 witness: the amended theorem applied at a 9-frame video: a no-input
first tick presents frame 1, and a backward-seek first tick presents
frame 0 by wraparound. -/
theorem c10_witness :
    presentedIndex 9 Key.noKey initialPlayState = some 1 ∧
    (presentedIndex 9 Key.backSeek initialPlayState = some 0 ↔
      (Key.backSeek = Key.toggle ∧ 1 ≤ 9) ∨ (Key.backSeek = Key.backSeek ∧ 9 = 9)) :=
  ⟨(c10_first_tick 9 Key.noKey).1 (by decide), (c10_first_tick 9 Key.backSeek).2⟩

/-- C4 counterexample: when the very first write raises, `save_video`
propagates the error with the destination NOT finalized — `release()` is
never reached — contradicting the claim that the destination is finalized
on every exit path. -/
theorem c4_counterexample :
    saveVideo (fun _ => true) [0] = (.error .writeFailed, false) := by decide

theorem writeFrames_ok (fails : Nat → Bool) :
    ∀ (l : List Nat) (start : Nat) (acc : List Nat),
      (∀ i, i < l.length → fails (start + i) = false) →
      writeFrames fails l start acc = .ok (acc ++ l)
  | [], _, acc, _ => by simp [writeFrames]
  | f :: rest, start, acc, h => by
    have h0 : fails start = false := by simpa using h 0 (by simp)
    simp only [writeFrames, h0, Bool.false_eq_true, if_false]
    rw [writeFrames_ok fails rest (start + 1) (acc ++ [f])
      (fun i hi => by
        have := h (i + 1) (by simpa using Nat.succ_lt_succ hi)
        simpa [Nat.add_assoc, Nat.add_comm 1 i] using this)]
    simp

theorem writeFrames_error (fails : Nat → Bool) :
    ∀ (l : List Nat) (start : Nat) (acc : List Nat) (i : Nat),
      i < l.length → fails (start + i) = true →
      (∀ j, j < i → fails (start + j) = false) →
      writeFrames fails l start acc = .error .writeFailed
  | [], _, _, i, hi, _, _ => absurd hi (by simp)
  | f :: rest, start, acc, 0, _, hf, _ => by
    simp only [Nat.add_zero] at hf
    simp [writeFrames, hf]
  | f :: rest, start, acc, i + 1, hi, hf, hprev => by
    have h0 : fails start = false := by simpa using hprev 0 (by omega)
    simp only [writeFrames, h0, Bool.false_eq_true, if_false]
    exact writeFrames_error fails rest (start + 1) (acc ++ [f]) i
      (by simpa using hi)
      (by simpa [Nat.add_assoc, Nat.add_comm 1 i] using hf)
      (fun j hj => by
        have := hprev (j + 1) (by omega)
        simpa [Nat.add_assoc, Nat.add_comm 1 j] using this)

/-- C4 (amended): the exporter finalizes (releases) the destination only on
the normal-completion path.  When no write fails it writes every frame in
order and releases the writer; when a write raises mid-stream, the error is
surfaced to the caller (not swallowed), but the destination is NOT
finalized first — `release()` on line 183 is skipped. -/
theorem c4_release_only_on_success (fails : Nat → Bool) (frames : List Nat) :
    ((∀ i, i < frames.length → fails i = false) →
      saveVideo fails frames = (.ok frames, true)) ∧
    (∀ i, i < frames.length → fails i = true →
      (∀ j, j < i → fails j = false) →
      saveVideo fails frames = (.error .writeFailed, false)) := by
  constructor
  · intro h
    unfold saveVideo
    rw [writeFrames_ok fails frames 0 []
      (fun i hi => by simpa using h i hi)]
    simp
  · intro i hi hf hprev
    unfold saveVideo
    rw [writeFrames_error fails frames 0 [] i hi (by simpa using hf)
      (fun j hj => by simpa using hprev j hj)]

/-- C4 witness: a stream whose second write raises — the error surfaces with
the writer unreleased; and the all-good case releases. -/
theorem c4_witness :
    saveVideo (fun i => decide (i = 1)) [5, 6, 7] = (.error .writeFailed, false) ∧
    saveVideo (fun _ => false) [5, 6, 7] = (.ok [5, 6, 7], true) :=
  ⟨(c4_release_only_on_success (fun i => decide (i = 1)) [5, 6, 7]).2 1
      (by decide) (by decide)
      (fun j hj => by
        have hj0 : j = 0 := by omega
        subst hj0
        decide),
    (c4_release_only_on_success (fun _ => false) [5, 6, 7]).1
      (fun i _ => rfl)⟩

/-- C5: the frame transform pipeline is a pure function of
(raw frame, matched record, configuration): rendering the same inputs twice
yields bit-identical RenderedFrames, and a full `generate_video` pass hands
the raw temperature data through unchanged — the in-place steps operate on
the copies taken at lines 93 and 108, never on the source frames. -/
theorem c5_pipeline_pure (cfg : Config) (bounds : List Nat)
    (mrec : MatchedRecord) (raw : Frame) (td : List Frame) (vts : List Int)
    (mp : List SensorReading) :
    renderFrame cfg bounds mrec raw = renderFrame cfg bounds mrec raw ∧
    ∀ out, generateVideo cfg td vts mp = .ok out → out.2 = td := by
  refine ⟨rfl, ?_⟩
  intro out h
  unfold generateVideo at h
  cases hm : matchVidToMeltpool td vts mp with
  | error e => rw [hm] at h; cases h
  | ok recs => rw [hm] at h; cases h; rfl

/-- C5 witness: a one-frame session rendered with all flags off. -/
theorem c5_witness :
    (([⟨[[((0 : Int), (0 : Int), (255 : Int))]], []⟩],
        [[[(1 : Int)]]]) : List RenderedFrame × List Frame).2 = [[[(1 : Int)]]] :=
  (c5_pipeline_pure ⟨false, false, false⟩ [] ⟨0, 0, 0, 0, 0, 0, 0, 0⟩ [[1]]
      [[[1]]] [0] [⟨0, 0, 0, 0, 0⟩]).2
    ([⟨[[(0, 0, 255)]], []⟩], [[[1]]]) (by decide)
